import Mathlib

/-!
Verification of the boot-memory core of this repository:
the aarch64 guest address-space layout (src/arch/src/aarch64/layout.rs)
and the IGVM image-import engine (src/vmm/src/igvm/loader.rs).

Machine integers (u64) are modelled as Nat with explicit reduction
modulo 2^64 wherever the Rust arithmetic can wrap.
-/

/-- The modulus of 64-bit unsigned arithmetic. -/
def U64 : Nat := 2 ^ 64

/-! ## Constants from src/arch/src/aarch64/layout.rs -/

def UEFI_START : Nat := 0
def UEFI_SIZE : Nat := 0x0400000

def MAPPED_IO_START : Nat := 0x09000000

def GIC_V3_DIST_SIZE : Nat := 0x010000
def GIC_V3_DIST_START : Nat := MAPPED_IO_START - GIC_V3_DIST_SIZE
def GIC_V3_REDIST_SIZE : Nat := 0x020000
def GIC_V3_ITS_SIZE : Nat := 0x020000

def LEGACY_SERIAL_MAPPED_IO_START : Nat := MAPPED_IO_START
def LEGACY_RTC_MAPPED_IO_START : Nat := 0x09010000
def LEGACY_GPIO_MAPPED_IO_START : Nat := 0x09020000

def MEM_PCI_IO_START : Nat := 0x09050000
def MEM_PCI_IO_SIZE : Nat := 0x10000

def MEM_32BIT_DEVICES_START : Nat := 0x10000000
def MEM_32BIT_DEVICES_SIZE : Nat := 0x20000000

def PCI_MMCONFIG_START : Nat := 0x30000000
def PCI_MMCONFIG_SIZE : Nat := 256 <<< 20

def RAM_START : Nat := 0x40000000

def MEM_32BIT_RESERVED_START : Nat := 0xfc000000
def MEM_32BIT_RESERVED_SIZE : Nat := 0x04000000

def RAM_64BIT_START : Nat := 0x100000000

/-- The `RegionName` enum from layout.rs (the names of the regions of the
guest physical address space). -/
inductive RegionName where
  | UEFI
  | GIC_V3_ITS
  | GIC_V3_REDIST
  | GIC_V3_DIST
  | LEGACY_SERIAL_MAPPED_IO
  | LEGACY_RTC_MAPPED_IO
  | LEGACY_GPIO_MAPPED_IO
  | MEM_PCI_IO
  | MEM_32BIT_DEVICES
  | PCI_MMCONFIG
  | RAM
  | MEM_32BIT_RESERVED
  | RAM_64BIT
  | PLATFORM_DEVICES
deriving DecidableEq

/-- A `BTreeMap<RegionName, (GuestAddress, GuestUsize)>`, modelled as a
key-value map; `insert` overwrites an existing binding of the same key,
exactly as `BTreeMap::insert` does. -/
def RMap : Type := RegionName → Option (Nat × Nat)

def RMap.empty : RMap := fun _ => none

def RMap.insert (m : RMap) (k : RegionName) (v : Nat × Nat) : RMap :=
  fun q => if q = k then some v else m q

section
open RegionName

/-- `arch_memory_regions` from layout.rs, translated insert by insert in
source order.  Note that the source's final insert of the 32-bit reserved
window reuses the key `PCI_MMCONFIG` (not `MEM_32BIT_RESERVED`), so it
overwrites the PCI MMCONFIG binding. -/
def arch_memory_regions (ram_size vcpus : Nat) : RMap :=
  let regions := RMap.empty
  let regions := regions.insert UEFI (UEFI_START, UEFI_SIZE)
  -- GIC (u64 arithmetic: the product and the subtractions wrap mod 2^64)
  let gic_redists_size := (vcpus * GIC_V3_REDIST_SIZE) % U64
  let gic_redist_start := (GIC_V3_DIST_START + (U64 - gic_redists_size)) % U64
  let gic_its_start := (gic_redist_start + (U64 - GIC_V3_ITS_SIZE)) % U64
  let regions := regions.insert GIC_V3_DIST (GIC_V3_DIST_START, GIC_V3_DIST_SIZE)
  let regions := regions.insert GIC_V3_REDIST (gic_redist_start, gic_redists_size)
  let regions := regions.insert GIC_V3_ITS (gic_its_start, GIC_V3_ITS_SIZE)
  -- Legacy MMIO
  let regions := regions.insert LEGACY_SERIAL_MAPPED_IO (LEGACY_SERIAL_MAPPED_IO_START, 0x1000)
  let regions := regions.insert LEGACY_RTC_MAPPED_IO (LEGACY_RTC_MAPPED_IO_START, 0x1000)
  let regions := regions.insert LEGACY_GPIO_MAPPED_IO (LEGACY_GPIO_MAPPED_IO_START, 0x1000)
  -- PCI
  let regions := regions.insert MEM_PCI_IO (MEM_PCI_IO_START, MEM_PCI_IO_SIZE)
  let regions := regions.insert MEM_32BIT_DEVICES (MEM_32BIT_DEVICES_START, MEM_32BIT_DEVICES_SIZE)
  let regions := regions.insert PCI_MMCONFIG (PCI_MMCONFIG_START, PCI_MMCONFIG_SIZE)
  -- RAM space
  let ram_32bit_space_size := MEM_32BIT_RESERVED_START - RAM_START
  let regions :=
    if ram_size ≤ ram_32bit_space_size then
      -- Case1: guest memory fits before the gap
      regions.insert RAM (RAM_START, ram_size)
    else
      -- Case2: guest memory extends beyond the gap
      (regions.insert RAM (RAM_START, ram_32bit_space_size)).insert RAM_64BIT
        (RAM_64BIT_START, ram_size - ram_32bit_space_size)
  let regions := regions.insert PCI_MMCONFIG (MEM_32BIT_RESERVED_START, MEM_32BIT_RESERVED_SIZE)
  regions

end

/-- Two half-open byte intervals `[b1, b1+s1)` and `[b2, b2+s2)` do not
intersect. -/
def disjointEntries (b1 s1 b2 s2 : Nat) : Prop :=
  s1 = 0 ∨ s2 = 0 ∨ b1 + s1 ≤ b2 ∨ b2 + s2 ≤ b1

/-! ## The IGVM loader (src/vmm/src/igvm/loader.rs) -/

/-- Modelled from the spec: `HV_PAGE_SIZE` comes from the crate's igvm
module, which is outside the excerpt; the spec's `page_size` is the
hypervisor page size, 4096 bytes. -/
def HV_PAGE_SIZE : Nat := 4096

/-- Modelled from the spec: the trust levels (`Vtl` from the external
igvm crate); a small ordered closed set, compared only for equality
except for the distinguished elevated level `Vtl2`. -/
inductive Vtl where
  | Vtl0
  | Vtl1
  | Vtl2
deriving DecidableEq

/-- Modelled from the spec: the startup memory types; the core only
distinguishes plain RAM from the "protectable RAM" special case. -/
inductive StartupMemoryType where
  | Ram
  | Vtl2ProtectableRam
deriving DecidableEq

/-- Modelled from the spec: the acceptance kinds (`BootPageAcceptance`
from the crate's igvm module, outside the excerpt); a closed set used
only for equality and for reporting back on conflict. -/
inductive BootPageAcceptance where
  | ExclusiveAndMeasured
  | ExclusiveUnmeasured
  | Shared
deriving DecidableEq

/-- Modelled from the spec: the register-kind tag set (the discriminants
of the external `X86Register` enum); a closed equality-comparable set. -/
inductive RegisterKind where
  | Rip
  | Rsp
  | Cr0
deriving DecidableEq

/-- Modelled from the spec: a register value is a register kind together
with its payload; `std::mem::discriminant` extracts the kind. -/
structure X86Register where
  kind : RegisterKind
  value : Nat
deriving DecidableEq

/-- Models `std::mem::discriminant(&register)`. -/
def discriminant (r : X86Register) : RegisterKind := r.kind

/-- The `ImportRegion` struct from loader.rs. -/
structure ImportRegion where
  page_base : Nat
  page_count : Nat
  acceptance : BootPageAcceptance
deriving DecidableEq

/-- The `Error` enum from loader.rs. -/
inductive Error where
  | OverlapsExistingRegion (r : ImportRegion)
  | InvalidParameterAreaIndex (i : Nat)
  | InvalidVtl
  | MemoryUnavailable
  | InvalidVpContextMemory (s : String)
  | DataTooLarge
  | NoVpContextPageSet
  | RelocationOverlap
  | RelocationAlignment
  | RelocationBaseGpa
  | RelocationMinimumGpa
  | RelocationMaximumGpa
  | RelocationSize
  | PageTableRelocationSet
  | PageTableUsedSize
deriving DecidableEq

/-- The `Loader` struct from loader.rs.  The guest memory handle is
modelled by what the loader observes of it: the finite ordered sequence
of contiguous backed ranges, each as `(start_addr, last_addr)` with an
inclusive last address.  The register table (`HashMap` keyed by
discriminant) is modelled as a function from register kind. -/
structure Loader where
  memory : List (Nat × Nat)
  regs : RegisterKind → Option X86Register
  accepted_ranges : List (Nat × Nat × BootPageAcceptance)
  max_vtl : Vtl
  bytes_written : Nat

/-- `Loader::new`. -/
def Loader.new (memory : List (Nat × Nat)) (max_vtl : Vtl) : Loader :=
  { memory := memory
    regs := fun _ => none
    accepted_ranges := []
    max_vtl := max_vtl
    bytes_written := 0 }

/-- The u64 expression `page_base + page_count - 1` from
`accept_new_range` (wrapping: it underflows when both are zero). -/
def page_end (page_base page_count : Nat) : Nat :=
  (page_base + page_count + (U64 - 1)) % U64

/-- Two inclusive intervals `[s1, e1]` and `[s2, e2]` intersect; this is
the overlap test of the external `RangeMap` on `page_base..=page_end`. -/
def overlaps (s1 e1 s2 e2 : Nat) : Bool :=
  decide (s1 ≤ e2) && decide (s2 ≤ e1)

/-- The u64 expression `overlap_end - overlap_start + 1` from
`accept_new_range` (wrapping subtraction and addition). -/
def reported_count (os oe : Nat) : Nat :=
  ((oe + (U64 - os % U64)) % U64 + 1) % U64

/-- `Loader::accept_new_range`.  Mirrors the `&mut self` method as a
state-passing function: the first component is the returned `Result`,
the second the loader after the call (unchanged on the error path, as in
the source). -/
def accept_new_range (l : Loader) (page_base page_count : Nat)
    (acceptance : BootPageAcceptance) : Except Error Unit × Loader :=
  let pe := page_end page_base page_count
  match l.accepted_ranges.find? (fun r => overlaps r.1 r.2.1 page_base pe) with
  | some (os, oe, oa) =>
      (Except.error (Error.OverlapsExistingRegion
        { page_base := os, page_count := reported_count os oe, acceptance := oa }), l)
  | none =>
      (Except.ok (),
       { l with accepted_ranges := (page_base, pe, acceptance) :: l.accepted_ranges })

/-- `Loader::import_pages`.  The byte-level write into guest memory goes
through the external guest-memory collaborator; its outcome is taken as
the oracle argument `write_ok`, and only the length of `data` matters to
this function. -/
def import_pages (l : Loader) (page_base page_count : Nat)
    (acceptance : BootPageAcceptance) (data_len : Nat) (write_ok : Bool) :
    Except Error Unit × Loader :=
  -- Track accepted ranges for duplicate imports.
  match accept_new_range l page_base page_count acceptance with
  | (Except.error e, l1) => (Except.error e, l1)
  | (Except.ok _, l1) =>
    -- Page count must be larger or equal to data.
    if (page_count * HV_PAGE_SIZE) % U64 < data_len then
      (Except.error Error.DataTooLarge, l1)
    else if write_ok = false then
      (Except.error Error.MemoryUnavailable, l1)
    else
      (Except.ok (),
       { l1 with bytes_written := (l1.bytes_written + page_count * HV_PAGE_SIZE) % U64 })

/-- `Loader::import_vp_register`.  The `panic!` on a duplicate register
kind is modelled as the outcome `none` (process abort); a normal return
is `some` of the `Result` paired with the updated loader. -/
def import_vp_register (l : Loader) (vtl : Vtl) (register : X86Register) :
    Option (Except Error Unit × Loader) :=
  if vtl ≠ l.max_vtl then some (Except.error Error.InvalidVtl, l)
  else
    match l.regs (discriminant register) with
    | some _ => none
    | none =>
        some (Except.ok (),
          { l with regs := fun k =>
              if k = discriminant register then some register else l.regs k })

/-- The range loop of `Loader::verify_startup_memory_available`:
iterates the guest memory's contiguous ranges in order, carrying the
`memory_found` flag. -/
def verify_ranges (ranges : List (Nat × Nat)) (base_address end_address : Nat)
    (memory_found : Bool) : Except Error Unit :=
  match ranges with
  | [] => if memory_found then Except.ok () else Except.error Error.MemoryUnavailable
  | (start_addr, last_addr) :: rest =>
      if base_address ≥ start_addr ∧ base_address < last_addr then
        if end_address > last_addr then Except.error Error.MemoryUnavailable
        else verify_ranges rest base_address end_address true
      else verify_ranges rest base_address end_address memory_found

/-- `Loader::verify_startup_memory_available` (it never mutates the
loader, so only the `Result` is returned). -/
def verify_startup_memory_available (l : Loader) (page_base page_count : Nat)
    (memory_type : StartupMemoryType) : Except Error Unit :=
  -- Allow Vtl2ProtectableRam only if VTL2 is enabled.
  if l.max_vtl = Vtl.Vtl2 then
    -- Ram and Vtl2ProtectableRam are both allowed (the latter only warns).
    verify_ranges l.memory ((page_base * HV_PAGE_SIZE) % U64)
      (((page_base * HV_PAGE_SIZE) % U64 + page_count * HV_PAGE_SIZE + (U64 - 1)) % U64) false
  else if memory_type ≠ StartupMemoryType.Ram then
    Except.error Error.MemoryUnavailable
  else
    verify_ranges l.memory ((page_base * HV_PAGE_SIZE) % U64)
      (((page_base * HV_PAGE_SIZE) % U64 + page_count * HV_PAGE_SIZE + (U64 - 1)) % U64) false

/-- One directive of an `import_pages` call sequence. -/
structure ImportCall where
  page_base : Nat
  page_count : Nat
  acceptance : BootPageAcceptance
  data_len : Nat
  write_ok : Bool

/-- Run a sequence of `accept_new_range` calls (keeping the state each
call leaves behind, as the `&mut self` method does). -/
def run_accepts (l : Loader) (cs : List (Nat × Nat × BootPageAcceptance)) : Loader :=
  match cs with
  | [] => l
  | c :: rest => run_accepts (accept_new_range l c.1 c.2.1 c.2.2).2 rest

/-- Run a sequence of `import_pages` calls. -/
def run_imports (l : Loader) (cs : List ImportCall) : Loader :=
  match cs with
  | [] => l
  | c :: rest =>
      run_imports (import_pages l c.page_base c.page_count c.acceptance c.data_len c.write_ok).2 rest

/-- Every call of the sequence returned `Ok`. -/
def run_imports_ok (l : Loader) (cs : List ImportCall) : Bool :=
  match cs with
  | [] => true
  | c :: rest =>
      match import_pages l c.page_base c.page_count c.acceptance c.data_len c.write_ok with
      | (Except.ok _, l1) => run_imports_ok l1 rest
      | (Except.error _, _) => false

/-- The tracker invariant: the accepted ranges are pairwise
non-intersecting (as inclusive page intervals). -/
def ranges_disjoint (rs : List (Nat × Nat × BootPageAcceptance)) : Prop :=
  rs.Pairwise (fun a b => overlaps a.1 a.2.1 b.1 b.2.1 = false)

/-! ### Concrete loaders used as witnesses -/

/-- A fresh loader over empty guest memory. -/
def loader0 : Loader := Loader.new [] Vtl.Vtl0

/-- A loader whose guest memory has two backed ranges separated by a
gap: bytes 0 to 0xffffff and bytes 0x2000000 to 0x2ffffff. -/
def loaderMem : Loader := Loader.new [(0, 0xffffff), (0x2000000, 0x2ffffff)] Vtl.Vtl0

/-- A loader that has already imported one register of kind `Rip`. -/
def loaderReg : Loader :=
  { loader0 with regs := fun k =>
      if k = RegisterKind.Rip then some { kind := RegisterKind.Rip, value := 5 } else none }

section
open RegionName

/-- Lower end of a static window containing each region's entry (used to
prove pairwise disjointness of the produced map; the bounds hold for
vcpus ≤ 1118 and ram_size ≤ 2^64 - 0x44000000).  Keys never bound by
`arch_memory_regions` get the empty window (0, 0). -/
def wlo : RegionName → Nat
  | UEFI => 0
  | GIC_V3_ITS => 0x410000
  | GIC_V3_REDIST => 0x430000
  | GIC_V3_DIST => 0x8ff0000
  | LEGACY_SERIAL_MAPPED_IO => 0x9000000
  | LEGACY_RTC_MAPPED_IO => 0x9010000
  | LEGACY_GPIO_MAPPED_IO => 0x9020000
  | MEM_PCI_IO => 0x9050000
  | MEM_32BIT_DEVICES => 0x10000000
  | PCI_MMCONFIG => 0xfc000000
  | RAM => 0x40000000
  | MEM_32BIT_RESERVED => 0
  | RAM_64BIT => 0x100000000
  | PLATFORM_DEVICES => 0

/-- Upper end of the static window of `wlo`. -/
def whi : RegionName → Nat
  | UEFI => 0x400000
  | GIC_V3_ITS => 0x8ff0000
  | GIC_V3_REDIST => 0x8ff0000
  | GIC_V3_DIST => 0x9000000
  | LEGACY_SERIAL_MAPPED_IO => 0x9001000
  | LEGACY_RTC_MAPPED_IO => 0x9011000
  | LEGACY_GPIO_MAPPED_IO => 0x9021000
  | MEM_PCI_IO => 0x9060000
  | MEM_32BIT_DEVICES => 0x30000000
  | PCI_MMCONFIG => 0x100000000
  | RAM => 0xfc000000
  | MEM_32BIT_RESERVED => 0
  | RAM_64BIT => 18446744073709551616
  | PLATFORM_DEVICES => 0

end

/-! ## Theorems -/

section
open RegionName

/-- Closed form of the map produced by `arch_memory_regions`: the final
binding of each key after all inserts (the second `PCI_MMCONFIG` insert wins;
`MEM_32BIT_RESERVED` and `PLATFORM_DEVICES` are never bound). -/
theorem arch_memory_regions_eq (r v : Nat) :
    arch_memory_regions r v = fun k =>
      match k with
      | UEFI => some (UEFI_START, UEFI_SIZE)
      | GIC_V3_DIST => some (GIC_V3_DIST_START, GIC_V3_DIST_SIZE)
      | GIC_V3_REDIST =>
          some ((GIC_V3_DIST_START + (U64 - (v * GIC_V3_REDIST_SIZE) % U64)) % U64,
                (v * GIC_V3_REDIST_SIZE) % U64)
      | GIC_V3_ITS =>
          some (((GIC_V3_DIST_START + (U64 - (v * GIC_V3_REDIST_SIZE) % U64)) % U64
                   + (U64 - GIC_V3_ITS_SIZE)) % U64,
                GIC_V3_ITS_SIZE)
      | LEGACY_SERIAL_MAPPED_IO => some (LEGACY_SERIAL_MAPPED_IO_START, 0x1000)
      | LEGACY_RTC_MAPPED_IO => some (LEGACY_RTC_MAPPED_IO_START, 0x1000)
      | LEGACY_GPIO_MAPPED_IO => some (LEGACY_GPIO_MAPPED_IO_START, 0x1000)
      | MEM_PCI_IO => some (MEM_PCI_IO_START, MEM_PCI_IO_SIZE)
      | MEM_32BIT_DEVICES => some (MEM_32BIT_DEVICES_START, MEM_32BIT_DEVICES_SIZE)
      | PCI_MMCONFIG => some (MEM_32BIT_RESERVED_START, MEM_32BIT_RESERVED_SIZE)
      | RAM =>
          if r ≤ MEM_32BIT_RESERVED_START - RAM_START then some (RAM_START, r)
          else some (RAM_START, MEM_32BIT_RESERVED_START - RAM_START)
      | MEM_32BIT_RESERVED => none
      | RAM_64BIT =>
          if r ≤ MEM_32BIT_RESERVED_START - RAM_START then none
          else some (RAM_64BIT_START, r - (MEM_32BIT_RESERVED_START - RAM_START))
      | PLATFORM_DEVICES => none := by
  funext k
  by_cases hr : r ≤ MEM_32BIT_RESERVED_START - RAM_START
  all_goals cases k <;> simp [arch_memory_regions, RMap.insert, RMap.empty, hr]

/-- Final binding of the UEFI key. -/
theorem amr_uefi (r v : Nat) :
    arch_memory_regions r v UEFI = some (UEFI_START, UEFI_SIZE) := by
  rw [arch_memory_regions_eq]

/-- Final binding of the GIC distributor key. -/
theorem amr_dist (r v : Nat) :
    arch_memory_regions r v GIC_V3_DIST = some (GIC_V3_DIST_START, GIC_V3_DIST_SIZE) := by
  rw [arch_memory_regions_eq]

/-- Final binding of the GIC redistributor key (wrapping u64 forms). -/
theorem amr_redist (r v : Nat) :
    arch_memory_regions r v GIC_V3_REDIST
      = some ((GIC_V3_DIST_START + (U64 - (v * GIC_V3_REDIST_SIZE) % U64)) % U64,
              (v * GIC_V3_REDIST_SIZE) % U64) := by
  rw [arch_memory_regions_eq]

/-- Final binding of the GIC ITS key (wrapping u64 forms). -/
theorem amr_its (r v : Nat) :
    arch_memory_regions r v GIC_V3_ITS
      = some (((GIC_V3_DIST_START + (U64 - (v * GIC_V3_REDIST_SIZE) % U64)) % U64
                 + (U64 - GIC_V3_ITS_SIZE)) % U64,
              GIC_V3_ITS_SIZE) := by
  rw [arch_memory_regions_eq]

/-- Final binding of the legacy serial key. -/
theorem amr_serial (r v : Nat) :
    arch_memory_regions r v LEGACY_SERIAL_MAPPED_IO
      = some (LEGACY_SERIAL_MAPPED_IO_START, 0x1000) := by
  rw [arch_memory_regions_eq]

/-- Final binding of the legacy RTC key. -/
theorem amr_rtc (r v : Nat) :
    arch_memory_regions r v LEGACY_RTC_MAPPED_IO
      = some (LEGACY_RTC_MAPPED_IO_START, 0x1000) := by
  rw [arch_memory_regions_eq]

/-- Final binding of the legacy GPIO key. -/
theorem amr_gpio (r v : Nat) :
    arch_memory_regions r v LEGACY_GPIO_MAPPED_IO
      = some (LEGACY_GPIO_MAPPED_IO_START, 0x1000) := by
  rw [arch_memory_regions_eq]

/-- Final binding of the PCI IO-window key. -/
theorem amr_pci_io_win (r v : Nat) :
    arch_memory_regions r v MEM_PCI_IO = some (MEM_PCI_IO_START, MEM_PCI_IO_SIZE) := by
  rw [arch_memory_regions_eq]

/-- Final binding of the 32-bit PCI device-window key. -/
theorem amr_dev32 (r v : Nat) :
    arch_memory_regions r v MEM_32BIT_DEVICES
      = some (MEM_32BIT_DEVICES_START, MEM_32BIT_DEVICES_SIZE) := by
  rw [arch_memory_regions_eq]

/-- Final binding of the PCI MMCONFIG key: the second insert overwrote it
with the 32-bit reserved window's base and size. -/
theorem amr_mmconfig (r v : Nat) :
    arch_memory_regions r v PCI_MMCONFIG
      = some (MEM_32BIT_RESERVED_START, MEM_32BIT_RESERVED_SIZE) := by
  rw [arch_memory_regions_eq]

/-- Final binding of the RAM key. -/
theorem amr_ram (r v : Nat) :
    arch_memory_regions r v RAM
      = if r ≤ MEM_32BIT_RESERVED_START - RAM_START then some (RAM_START, r)
        else some (RAM_START, MEM_32BIT_RESERVED_START - RAM_START) := by
  rw [arch_memory_regions_eq]

/-- The MEM_32BIT_RESERVED key is never bound. -/
theorem amr_reserved (r v : Nat) :
    arch_memory_regions r v MEM_32BIT_RESERVED = none := by
  rw [arch_memory_regions_eq]

/-- Final binding of the RAM_64BIT key. -/
theorem amr_ram64 (r v : Nat) :
    arch_memory_regions r v RAM_64BIT
      = if r ≤ MEM_32BIT_RESERVED_START - RAM_START then none
        else some (RAM_64BIT_START, r - (MEM_32BIT_RESERVED_START - RAM_START)) := by
  rw [arch_memory_regions_eq]

/-- The PLATFORM_DEVICES key is never bound by `arch_memory_regions`. -/
theorem amr_platform (r v : Nat) :
    arch_memory_regions r v PLATFORM_DEVICES = none := by
  rw [arch_memory_regions_eq]

end

/-- `U64` as a numeral, for arithmetic automation. -/
theorem U64_eq : U64 = 18446744073709551616 := by norm_num [U64]

/-- With at most 1150 vcpus the redistributor size fits under the
distributor base, so the wrapping subtractions do not wrap. -/
theorem gic_redist_start_eq (vcpus : Nat) (h : vcpus * GIC_V3_REDIST_SIZE ≤ GIC_V3_DIST_START) :
    (GIC_V3_DIST_START + (U64 - (vcpus * GIC_V3_REDIST_SIZE) % U64)) % U64
      = GIC_V3_DIST_START - vcpus * GIC_V3_REDIST_SIZE := by
  have hm : (vcpus * GIC_V3_REDIST_SIZE) % U64 = vcpus * GIC_V3_REDIST_SIZE := by
    apply Nat.mod_eq_of_lt
    have : GIC_V3_DIST_START < U64 := by norm_num [GIC_V3_DIST_START, MAPPED_IO_START, GIC_V3_DIST_SIZE, U64]
    omega
  rw [hm]
  simp only [U64_eq, GIC_V3_DIST_START, MAPPED_IO_START, GIC_V3_DIST_SIZE] at h ⊢
  omega

/-- Same, one level further down: the ITS base does not wrap either. -/
theorem gic_its_start_eq (vcpus : Nat)
    (h : vcpus * GIC_V3_REDIST_SIZE + GIC_V3_ITS_SIZE ≤ GIC_V3_DIST_START) :
    ((GIC_V3_DIST_START + (U64 - (vcpus * GIC_V3_REDIST_SIZE) % U64)) % U64
        + (U64 - GIC_V3_ITS_SIZE)) % U64
      = GIC_V3_DIST_START - vcpus * GIC_V3_REDIST_SIZE - GIC_V3_ITS_SIZE := by
  rw [gic_redist_start_eq vcpus (by omega)]
  simp only [U64_eq, GIC_V3_DIST_START, MAPPED_IO_START, GIC_V3_DIST_SIZE,
    GIC_V3_ITS_SIZE] at h ⊢
  omega

/-- C1: in every produced map the PCI MMCONFIG binding is overwritten by
the second insert (which reuses the `PCI_MMCONFIG` key for the 32-bit
reserved window's base and size), and no `MEM_32BIT_RESERVED` binding
exists — contradicting the claim that the map holds the MMCONFIG window
at 0x30000000 with size 256 MiB alongside a separate reserved window.
Evaluation at ram_size = 2 GiB, vcpus = 4. -/
theorem C1_pci_mmconfig_overwritten :
    arch_memory_regions 0x80000000 4 RegionName.PCI_MMCONFIG
        = some (MEM_32BIT_RESERVED_START, MEM_32BIT_RESERVED_SIZE) ∧
    arch_memory_regions 0x80000000 4 RegionName.PCI_MMCONFIG
        ≠ some (PCI_MMCONFIG_START, PCI_MMCONFIG_SIZE) ∧
    arch_memory_regions 0x80000000 4 RegionName.MEM_32BIT_RESERVED = none := by
  decide

/-- C5: the RAM split around the low-memory gap, exactly as claimed:
with gap = MEM_32BIT_RESERVED_START - RAM_START, a ram_size at most the
gap yields a single RAM region and no RAM_64BIT region; a larger
ram_size yields the full low region and a high region of the remainder,
with no truncation. -/
theorem C5_ram_split (ram_size vcpus : Nat) :
    (ram_size ≤ MEM_32BIT_RESERVED_START - RAM_START →
      arch_memory_regions ram_size vcpus RegionName.RAM = some (RAM_START, ram_size) ∧
      arch_memory_regions ram_size vcpus RegionName.RAM_64BIT = none) ∧
    (MEM_32BIT_RESERVED_START - RAM_START < ram_size →
      arch_memory_regions ram_size vcpus RegionName.RAM
          = some (RAM_START, MEM_32BIT_RESERVED_START - RAM_START) ∧
      arch_memory_regions ram_size vcpus RegionName.RAM_64BIT
          = some (RAM_64BIT_START, ram_size - (MEM_32BIT_RESERVED_START - RAM_START))) := by
  constructor <;> intro h
  · simp [arch_memory_regions_eq, h]
  · simp [arch_memory_regions_eq, Nat.not_le.mpr h]

/-- C5 witness: the spec scenario ram_size = 2 GiB (which is at most the
gap of 0xbc000000 bytes), vcpus = 4. -/
theorem C5_witness :
    arch_memory_regions (2 ^ 31) 4 RegionName.RAM = some (RAM_START, 2 ^ 31) ∧
    arch_memory_regions (2 ^ 31) 4 RegionName.RAM_64BIT = none :=
  (C5_ram_split (2 ^ 31) 4).1 (by decide)

/-- C8 counterexample: the claim quantifies over every vcpu_count, but at
vcpus = 1152 the u64 expression `GIC_V3_DIST_START - vcpus * GIC_V3_REDIST_SIZE`
underflows and wraps, so the redistributor region's base plus its size no
longer equals the distributor's base. -/
theorem C8_contiguity_counterexample :
    arch_memory_regions 0x80000000 1152 RegionName.GIC_V3_REDIST
        = some (0xffffffffffff0000, 0x9000000) ∧
    0xffffffffffff0000 + 0x9000000 ≠ GIC_V3_DIST_START := by
  decide

/-- C8 (amended with vcpus ≤ 1150, so that the redistributor and ITS
bases do not underflow): the redistributor region has size
vcpus * GIC_V3_REDIST_SIZE and ends exactly at the distributor's base,
the ITS region ends exactly at the redistributor's base, and the three
interrupt-controller regions are pairwise disjoint. -/
theorem C8_gic_contiguous (ram_size vcpus : Nat) (h : vcpus ≤ 1150) :
    arch_memory_regions ram_size vcpus RegionName.GIC_V3_DIST
        = some (GIC_V3_DIST_START, GIC_V3_DIST_SIZE) ∧
    arch_memory_regions ram_size vcpus RegionName.GIC_V3_REDIST
        = some (GIC_V3_DIST_START - vcpus * GIC_V3_REDIST_SIZE, vcpus * GIC_V3_REDIST_SIZE) ∧
    arch_memory_regions ram_size vcpus RegionName.GIC_V3_ITS
        = some (GIC_V3_DIST_START - vcpus * GIC_V3_REDIST_SIZE - GIC_V3_ITS_SIZE,
                GIC_V3_ITS_SIZE) ∧
    (GIC_V3_DIST_START - vcpus * GIC_V3_REDIST_SIZE) + vcpus * GIC_V3_REDIST_SIZE
        = GIC_V3_DIST_START ∧
    (GIC_V3_DIST_START - vcpus * GIC_V3_REDIST_SIZE - GIC_V3_ITS_SIZE) + GIC_V3_ITS_SIZE
        = GIC_V3_DIST_START - vcpus * GIC_V3_REDIST_SIZE ∧
    disjointEntries (GIC_V3_DIST_START - vcpus * GIC_V3_REDIST_SIZE - GIC_V3_ITS_SIZE)
        GIC_V3_ITS_SIZE (GIC_V3_DIST_START - vcpus * GIC_V3_REDIST_SIZE)
        (vcpus * GIC_V3_REDIST_SIZE) ∧
    disjointEntries (GIC_V3_DIST_START - vcpus * GIC_V3_REDIST_SIZE - GIC_V3_ITS_SIZE)
        GIC_V3_ITS_SIZE GIC_V3_DIST_START GIC_V3_DIST_SIZE ∧
    disjointEntries (GIC_V3_DIST_START - vcpus * GIC_V3_REDIST_SIZE)
        (vcpus * GIC_V3_REDIST_SIZE) GIC_V3_DIST_START GIC_V3_DIST_SIZE := by
  have hb : vcpus * GIC_V3_REDIST_SIZE + GIC_V3_ITS_SIZE ≤ GIC_V3_DIST_START := by
    simp only [GIC_V3_REDIST_SIZE, GIC_V3_ITS_SIZE, GIC_V3_DIST_START, MAPPED_IO_START,
      GIC_V3_DIST_SIZE]
    omega
  refine ⟨?_, ?_, ?_, ?_, ?_, ?_, ?_, ?_⟩
  · simp [arch_memory_regions_eq]
  · rw [arch_memory_regions_eq]
    simp only
    rw [gic_redist_start_eq vcpus (by omega)]
    have hm : (vcpus * GIC_V3_REDIST_SIZE) % U64 = vcpus * GIC_V3_REDIST_SIZE := by
      apply Nat.mod_eq_of_lt
      simp only [GIC_V3_REDIST_SIZE, U64_eq]
      omega
    rw [hm]
  · rw [arch_memory_regions_eq]
    simp only
    rw [gic_its_start_eq vcpus hb]
  all_goals
    simp only [disjointEntries, GIC_V3_REDIST_SIZE, GIC_V3_ITS_SIZE, GIC_V3_DIST_START,
      MAPPED_IO_START, GIC_V3_DIST_SIZE] at hb ⊢
  all_goals omega

/-- C8 witness: the spec scenario vcpus = 8 — the redistributor is sized
8 * GIC_V3_REDIST_SIZE immediately below the distributor, the ITS
immediately below the redistributor. -/
theorem C8_witness :
    arch_memory_regions 0x80000000 8 RegionName.GIC_V3_DIST
        = some (GIC_V3_DIST_START, GIC_V3_DIST_SIZE) ∧
    arch_memory_regions 0x80000000 8 RegionName.GIC_V3_REDIST
        = some (GIC_V3_DIST_START - 8 * GIC_V3_REDIST_SIZE, 8 * GIC_V3_REDIST_SIZE) ∧
    arch_memory_regions 0x80000000 8 RegionName.GIC_V3_ITS
        = some (GIC_V3_DIST_START - 8 * GIC_V3_REDIST_SIZE - GIC_V3_ITS_SIZE,
                GIC_V3_ITS_SIZE) ∧
    (GIC_V3_DIST_START - 8 * GIC_V3_REDIST_SIZE) + 8 * GIC_V3_REDIST_SIZE
        = GIC_V3_DIST_START ∧
    (GIC_V3_DIST_START - 8 * GIC_V3_REDIST_SIZE - GIC_V3_ITS_SIZE) + GIC_V3_ITS_SIZE
        = GIC_V3_DIST_START - 8 * GIC_V3_REDIST_SIZE := by
  have h := C8_gic_contiguous 0x80000000 8 (by decide)
  exact ⟨h.1, h.2.1, h.2.2.1, h.2.2.2.1, h.2.2.2.2.1⟩

/-- Every static window stays inside the 64-bit address space. -/
theorem whi_le_U64 : ∀ k, whi k ≤ U64 := by
  intro k
  cases k <;> simp [whi, U64_eq]

/-- Any two distinct region keys have separated static windows, except
for the ITS/redistributor pair (whose regions move with vcpus and are
handled separately). -/
theorem windows_sep : ∀ k1 k2 : RegionName, k1 ≠ k2 →
    (k1 = RegionName.GIC_V3_ITS ∧ k2 = RegionName.GIC_V3_REDIST) ∨
    (k1 = RegionName.GIC_V3_REDIST ∧ k2 = RegionName.GIC_V3_ITS) ∨
    whi k1 ≤ wlo k2 ∨ whi k2 ≤ wlo k1 := by
  intro k1 k2 h
  cases k1 <;> cases k2 <;> first | exact absurd rfl h | decide

/-- Under the C3 bounds every bound map entry lies inside its key's
static window. -/
theorem entry_in_window (ram_size vcpus : Nat) (hv : vcpus ≤ 1118)
    (hr : ram_size ≤ U64 - 0x44000000) :
    ∀ k b s, arch_memory_regions ram_size vcpus k = some (b, s) →
      wlo k ≤ b ∧ b + s ≤ whi k := by
  have hb : vcpus * GIC_V3_REDIST_SIZE + GIC_V3_ITS_SIZE ≤ GIC_V3_DIST_START := by
    simp only [GIC_V3_REDIST_SIZE, GIC_V3_ITS_SIZE, GIC_V3_DIST_START, MAPPED_IO_START,
      GIC_V3_DIST_SIZE]
    omega
  have hm : (vcpus * GIC_V3_REDIST_SIZE) % U64 = vcpus * GIC_V3_REDIST_SIZE := by
    apply Nat.mod_eq_of_lt
    simp only [GIC_V3_REDIST_SIZE, U64_eq]
    omega
  have h1 := gic_redist_start_eq vcpus (by omega)
  have h2 := gic_its_start_eq vcpus hb
  intro k b s hk
  cases k
  · rw [amr_uefi] at hk
    simp only [Option.some.injEq, Prod.mk.injEq] at hk
    obtain ⟨h3, h4⟩ := hk
    subst h3; subst h4
    simp only [wlo, whi, UEFI_START, UEFI_SIZE]
    omega
  · rw [amr_its, h2] at hk
    simp only [Option.some.injEq, Prod.mk.injEq] at hk
    obtain ⟨h3, h4⟩ := hk
    subst h3; subst h4
    simp only [wlo, whi, GIC_V3_REDIST_SIZE, GIC_V3_ITS_SIZE, GIC_V3_DIST_START,
      MAPPED_IO_START, GIC_V3_DIST_SIZE]
    omega
  · rw [amr_redist, h1, hm] at hk
    simp only [Option.some.injEq, Prod.mk.injEq] at hk
    obtain ⟨h3, h4⟩ := hk
    subst h3; subst h4
    simp only [wlo, whi, GIC_V3_REDIST_SIZE, GIC_V3_DIST_START, MAPPED_IO_START,
      GIC_V3_DIST_SIZE]
    omega
  · rw [amr_dist] at hk
    simp only [Option.some.injEq, Prod.mk.injEq] at hk
    obtain ⟨h3, h4⟩ := hk
    subst h3; subst h4
    simp only [wlo, whi, GIC_V3_DIST_START, MAPPED_IO_START, GIC_V3_DIST_SIZE]
    omega
  · rw [amr_serial] at hk
    simp only [Option.some.injEq, Prod.mk.injEq] at hk
    obtain ⟨h3, h4⟩ := hk
    subst h3; subst h4
    simp only [wlo, whi, LEGACY_SERIAL_MAPPED_IO_START, MAPPED_IO_START]
    omega
  · rw [amr_rtc] at hk
    simp only [Option.some.injEq, Prod.mk.injEq] at hk
    obtain ⟨h3, h4⟩ := hk
    subst h3; subst h4
    simp only [wlo, whi, LEGACY_RTC_MAPPED_IO_START]
    omega
  · rw [amr_gpio] at hk
    simp only [Option.some.injEq, Prod.mk.injEq] at hk
    obtain ⟨h3, h4⟩ := hk
    subst h3; subst h4
    simp only [wlo, whi, LEGACY_GPIO_MAPPED_IO_START]
    omega
  · rw [amr_pci_io_win] at hk
    simp only [Option.some.injEq, Prod.mk.injEq] at hk
    obtain ⟨h3, h4⟩ := hk
    subst h3; subst h4
    simp only [wlo, whi, MEM_PCI_IO_START, MEM_PCI_IO_SIZE]
    omega
  · rw [amr_dev32] at hk
    simp only [Option.some.injEq, Prod.mk.injEq] at hk
    obtain ⟨h3, h4⟩ := hk
    subst h3; subst h4
    simp only [wlo, whi, MEM_32BIT_DEVICES_START, MEM_32BIT_DEVICES_SIZE]
    omega
  · rw [amr_mmconfig] at hk
    simp only [Option.some.injEq, Prod.mk.injEq] at hk
    obtain ⟨h3, h4⟩ := hk
    subst h3; subst h4
    simp only [wlo, whi, MEM_32BIT_RESERVED_START, MEM_32BIT_RESERVED_SIZE]
    omega
  · rw [amr_ram] at hk
    split at hk
    all_goals simp only [Option.some.injEq, Prod.mk.injEq] at hk
    all_goals obtain ⟨h3, h4⟩ := hk
    all_goals subst h3; subst h4
    all_goals simp_all only [wlo, whi, RAM_START, MEM_32BIT_RESERVED_START]
    all_goals omega
  · rw [amr_reserved] at hk
    simp at hk
  · rw [amr_ram64] at hk
    split at hk
    · simp at hk
    · simp only [Option.some.injEq, Prod.mk.injEq] at hk
      obtain ⟨h3, h4⟩ := hk
      subst h3; subst h4
      simp only [U64_eq] at hr
      simp only [wlo, whi, RAM_64BIT_START, MEM_32BIT_RESERVED_START, RAM_START]
      omega
  · rw [amr_platform] at hk
    simp at hk

/-- C3 counterexample: the claim quantifies over every vcpu_count, but at
vcpus = 1119 the computed (non-wrapping) GIC ITS region [0x3f0000, 0x410000)
overlaps the UEFI region [0, 0x400000). -/
theorem C3_overlap_counterexample :
    arch_memory_regions 0x80000000 1119 RegionName.GIC_V3_ITS = some (0x3f0000, 0x20000) ∧
    arch_memory_regions 0x80000000 1119 RegionName.UEFI = some (0, 0x400000) ∧
    ¬ disjointEntries 0x3f0000 0x20000 0 0x400000 := by
  refine ⟨by decide, by decide, ?_⟩
  simp only [disjointEntries]
  omega

/-- C3 (amended with vcpus ≤ 1118 — so the interrupt-controller regions
stay above the firmware window — and ram_size ≤ 2^64 - 0x44000000 — so
the high-RAM region stays inside the 64-bit address space): any two
distinct entries of the produced map are disjoint half-open intervals,
and every entry lies within the addressable range. -/
theorem C3_disjoint_bounded (ram_size vcpus : Nat) (hv : vcpus ≤ 1118)
    (hr : ram_size ≤ U64 - 0x44000000) :
    ∀ k1 k2 b1 s1 b2 s2, k1 ≠ k2 →
      arch_memory_regions ram_size vcpus k1 = some (b1, s1) →
      arch_memory_regions ram_size vcpus k2 = some (b2, s2) →
      disjointEntries b1 s1 b2 s2 ∧ b1 + s1 ≤ U64 := by
  have hb : vcpus * GIC_V3_REDIST_SIZE + GIC_V3_ITS_SIZE ≤ GIC_V3_DIST_START := by
    simp only [GIC_V3_REDIST_SIZE, GIC_V3_ITS_SIZE, GIC_V3_DIST_START, MAPPED_IO_START,
      GIC_V3_DIST_SIZE]
    omega
  have hm : (vcpus * GIC_V3_REDIST_SIZE) % U64 = vcpus * GIC_V3_REDIST_SIZE := by
    apply Nat.mod_eq_of_lt
    simp only [GIC_V3_REDIST_SIZE, U64_eq]
    omega
  have h1 := gic_redist_start_eq vcpus (by omega)
  have h2 := gic_its_start_eq vcpus hb
  intro k1 k2 b1 s1 b2 s2 hne hk1 hk2
  have w1 := entry_in_window ram_size vcpus hv hr k1 b1 s1 hk1
  have w2 := entry_in_window ram_size vcpus hv hr k2 b2 s2 hk2
  refine ⟨?_, le_trans w1.2 (whi_le_U64 k1)⟩
  rcases windows_sep k1 k2 hne with ⟨e1, e2⟩ | ⟨e1, e2⟩ | hw | hw
  · subst e1; subst e2
    rw [amr_its, h2] at hk1
    rw [amr_redist, h1, hm] at hk2
    simp only [Option.some.injEq, Prod.mk.injEq] at hk1 hk2
    simp only [disjointEntries, ← hk1.1, ← hk1.2, ← hk2.1, ← hk2.2]
    simp only [GIC_V3_REDIST_SIZE, GIC_V3_ITS_SIZE, GIC_V3_DIST_START, MAPPED_IO_START,
      GIC_V3_DIST_SIZE] at hb ⊢
    omega
  · subst e1; subst e2
    rw [amr_its, h2] at hk2
    rw [amr_redist, h1, hm] at hk1
    simp only [Option.some.injEq, Prod.mk.injEq] at hk1 hk2
    simp only [disjointEntries, ← hk1.1, ← hk1.2, ← hk2.1, ← hk2.2]
    simp only [GIC_V3_REDIST_SIZE, GIC_V3_ITS_SIZE, GIC_V3_DIST_START, MAPPED_IO_START,
      GIC_V3_DIST_SIZE] at hb ⊢
    omega
  · simp only [disjointEntries]
    have := w1.2
    have := w2.1
    omega
  · simp only [disjointEntries]
    have := w1.1
    have := w2.2
    omega

/-- C3 witness: at ram_size = 6 GiB and vcpus = 8, the RAM and RAM_64BIT
entries are disjoint and within the addressable range. -/
theorem C3_witness :
    disjointEntries 0x40000000 0xbc000000 0x100000000 (0x180000000 - 0xbc000000) ∧
    0x40000000 + 0xbc000000 ≤ U64 :=
  C3_disjoint_bounded 0x180000000 8 (by decide) (by decide)
    RegionName.RAM RegionName.RAM_64BIT 0x40000000 0xbc000000 0x100000000
    (0x180000000 - 0xbc000000) (by decide) (by decide) (by decide)

/-! ### Loader lemmas -/

/-- The interval-intersection test is symmetric. -/
theorem overlaps_comm (s1 e1 s2 e2 : Nat) :
    overlaps s1 e1 s2 e2 = overlaps s2 e2 s1 e1 := by
  simp only [overlaps]
  exact Bool.and_comm _ _

set_option maxRecDepth 4096 in
/-- Case analysis of `accept_new_range`: either the query overlaps some
stored range — then the call fails with that range's data and leaves the
loader untouched — or no stored range overlaps and the new range is
inserted. -/
theorem accept_cases (l : Loader) (pb pc : Nat) (a : BootPageAcceptance) :
    (∃ os oe oa, accept_new_range l pb pc a
        = (Except.error (Error.OverlapsExistingRegion
            { page_base := os, page_count := reported_count os oe, acceptance := oa }), l) ∧
        (os, oe, oa) ∈ l.accepted_ranges ∧
        overlaps os oe pb (page_end pb pc) = true) ∨
    (accept_new_range l pb pc a
        = (Except.ok (),
           { l with accepted_ranges := (pb, page_end pb pc, a) :: l.accepted_ranges }) ∧
     ∀ r ∈ l.accepted_ranges, overlaps r.1 r.2.1 pb (page_end pb pc) = false) := by
  cases hf : l.accepted_ranges.find?
      (fun r => overlaps r.1 r.2.1 pb (page_end pb pc)) with
  | some r =>
      left
      obtain ⟨os, oe, oa⟩ := r
      refine ⟨os, oe, oa, ?_, ?_, ?_⟩
      · simp [accept_new_range, hf]
      · exact List.mem_of_find?_eq_some hf
      · have := List.find?_some hf
        simpa using this
  | none =>
      right
      constructor
      · simp [accept_new_range, hf]
      · intro r hr
        have := List.find?_eq_none.mp hf r hr
        simpa using this

/-- Characterization of a successful `import_pages` call: the range is
recorded and the byte counter advances by `page_count * HV_PAGE_SIZE`
(u64 addition). -/
theorem import_pages_ok_char (l : Loader) (pb pc : Nat) (a : BootPageAcceptance)
    (dl : Nat) (w : Bool)
    (h : (import_pages l pb pc a dl w).1 = Except.ok ()) :
    (import_pages l pb pc a dl w).2
      = { l with accepted_ranges := (pb, page_end pb pc, a) :: l.accepted_ranges,
                 bytes_written := (l.bytes_written + pc * HV_PAGE_SIZE) % U64 } := by
  rcases accept_cases l pb pc a with ⟨os, oe, oa, heq, _, _⟩ | ⟨heq, _⟩
  · simp [import_pages, heq] at h
  · by_cases hd : (pc * HV_PAGE_SIZE) % U64 < dl
    · simp [import_pages, heq, hd] at h
    · by_cases hw : w = false
      · simp [import_pages, heq, hd, hw] at h
      · simp [import_pages, heq, hd, hw]

/-- `accept_new_range` preserves pairwise disjointness of the tracker. -/
theorem accept_preserves_disjoint (l : Loader) (pb pc : Nat) (a : BootPageAcceptance)
    (h : ranges_disjoint l.accepted_ranges) :
    ranges_disjoint (accept_new_range l pb pc a).2.accepted_ranges := by
  rcases accept_cases l pb pc a with ⟨os, oe, oa, heq, _, _⟩ | ⟨heq, hall⟩
  · rw [heq]
    exact h
  · rw [heq]
    refine List.Pairwise.cons ?_ h
    intro r hr
    rw [overlaps_comm]
    exact hall r hr

/-- Disjointness of the tracker is an invariant of any `accept` call
sequence. -/
theorem run_accepts_disjoint :
    ∀ (cs : List (Nat × Nat × BootPageAcceptance)) (l : Loader),
      ranges_disjoint l.accepted_ranges →
      ranges_disjoint (run_accepts l cs).accepted_ranges := by
  intro cs
  induction cs with
  | nil => intro l h; exact h
  | cons c rest ih =>
      intro l h
      exact ih _ (accept_preserves_disjoint l c.1 c.2.1 c.2.2 h)

/-- C2 counterexample: a fresh loader, `import_pages` of one page with
4097 bytes of data.  The call fails the capacity check (DataTooLarge),
yet the range [0, 0] has been recorded in the accepted set — the failed
call leaves a trace, contrary to the claim. -/
theorem C2_failed_import_leaves_trace :
    (import_pages loader0 0 1 BootPageAcceptance.ExclusiveAndMeasured 4097 true).1
        = Except.error Error.DataTooLarge ∧
    (import_pages loader0 0 1 BootPageAcceptance.ExclusiveAndMeasured 4097 true).2.accepted_ranges
        ≠ loader0.accepted_ranges :=
  ⟨rfl, fun h => List.cons_ne_nil _ _ h⟩

/-- C2 (amended): every failed `import_pages` call leaves `bytes_written`
unchanged; a call that fails the overlap check (Conflict) leaves the
loader completely unchanged; but a call that fails with DataTooLarge or
MemoryUnavailable has already recorded its range in the accepted set. -/
theorem C2_import_pages_atomicity (l : Loader) (pb pc : Nat) (a : BootPageAcceptance)
    (dl : Nat) (w : Bool) (e : Error)
    (h : (import_pages l pb pc a dl w).1 = Except.error e) :
    (import_pages l pb pc a dl w).2.bytes_written = l.bytes_written ∧
    (∀ ir, e = Error.OverlapsExistingRegion ir → (import_pages l pb pc a dl w).2 = l) ∧
    ((e = Error.DataTooLarge ∨ e = Error.MemoryUnavailable) →
      (import_pages l pb pc a dl w).2.accepted_ranges
        = (pb, page_end pb pc, a) :: l.accepted_ranges) := by
  rcases accept_cases l pb pc a with ⟨os, oe, oa, heq, hmem, hov⟩ | ⟨heq, hall⟩
  · have hres : import_pages l pb pc a dl w
        = (Except.error (Error.OverlapsExistingRegion
            { page_base := os, page_count := reported_count os oe, acceptance := oa }), l) := by
      simp [import_pages, heq]
    rw [hres] at h
    have he := Except.error.inj h
    rw [hres]
    refine ⟨rfl, fun ir hir => rfl, fun hde => ?_⟩
    rcases hde with hde | hde <;> rw [← he] at hde <;> exact Error.noConfusion hde
  · by_cases hd : (pc * HV_PAGE_SIZE) % U64 < dl
    · have hres : import_pages l pb pc a dl w
          = (Except.error Error.DataTooLarge,
             { l with accepted_ranges := (pb, page_end pb pc, a) :: l.accepted_ranges }) := by
        simp [import_pages, heq, hd]
      rw [hres] at h
      have he := Except.error.inj h
      rw [hres]
      exact ⟨rfl, fun ir hir => Error.noConfusion (he.trans hir), fun _ => rfl⟩
    · by_cases hw : w = false
      · have hres : import_pages l pb pc a dl w
            = (Except.error Error.MemoryUnavailable,
               { l with accepted_ranges := (pb, page_end pb pc, a) :: l.accepted_ranges }) := by
          simp [import_pages, heq, hd, hw]
        rw [hres] at h
        have he := Except.error.inj h
        rw [hres]
        exact ⟨rfl, fun ir hir => Error.noConfusion (he.trans hir), fun _ => rfl⟩
      · have hres : (import_pages l pb pc a dl w).1 = Except.ok () := by
          simp [import_pages, heq, hd, hw]
        rw [hres] at h
        exact Except.noConfusion h

/-- C2 witness: the amended atomicity applied to the DataTooLarge
counterexample input — the byte counter is untouched. -/
theorem C2_witness :
    (import_pages loader0 0 1 BootPageAcceptance.ExclusiveAndMeasured 4097 true).2.bytes_written
        = loader0.bytes_written :=
  (C2_import_pages_atomicity loader0 0 1 BootPageAcceptance.ExclusiveAndMeasured 4097 true
    Error.DataTooLarge rfl).1

/-- C4: (1) over any sequence of `accept` calls starting from an empty
tracker, the accepted ranges stay pairwise non-intersecting; (2) a call
that intersects no stored range inserts its interval with its kind and
returns success; (3) a failing call leaves the loader unchanged and its
error carries an intersecting stored entry's page base, reported count,
and acceptance kind — where the reported count equals the entry's true
page count `oe - os + 1` whenever that count does not itself wrap. -/
theorem C4_accept_new_range_spec :
    (∀ (l0 : Loader) (cs : List (Nat × Nat × BootPageAcceptance)),
      l0.accepted_ranges = [] →
      ranges_disjoint (run_accepts l0 cs).accepted_ranges) ∧
    (∀ (l : Loader) (pb pc : Nat) (a : BootPageAcceptance),
      ((∀ r ∈ l.accepted_ranges, overlaps r.1 r.2.1 pb (page_end pb pc) = false) →
        accept_new_range l pb pc a
          = (Except.ok (),
             { l with accepted_ranges := (pb, page_end pb pc, a) :: l.accepted_ranges })) ∧
      (∀ e, (accept_new_range l pb pc a).1 = Except.error e →
        (accept_new_range l pb pc a).2 = l ∧
        ∃ os oe oa, (os, oe, oa) ∈ l.accepted_ranges ∧
          overlaps os oe pb (page_end pb pc) = true ∧
          e = Error.OverlapsExistingRegion
                { page_base := os, page_count := reported_count os oe, acceptance := oa })) ∧
    (∀ os oe, os ≤ oe → oe < U64 → oe + 1 - os < U64 →
      reported_count os oe = oe - os + 1) := by
  refine ⟨?_, ?_, ?_⟩
  · intro l0 cs h0
    apply run_accepts_disjoint
    rw [h0]
    exact List.Pairwise.nil
  · intro l pb pc a
    constructor
    · intro hall
      rcases accept_cases l pb pc a with ⟨os, oe, oa, _, hmem, hov⟩ | ⟨heq, _⟩
      · rw [hall (os, oe, oa) hmem] at hov
        exact Bool.noConfusion hov
      · exact heq
    · intro e he
      rcases accept_cases l pb pc a with ⟨os, oe, oa, heq, hmem, hov⟩ | ⟨heq, _⟩
      · rw [heq] at he
        rw [heq]
        exact ⟨rfl, os, oe, oa, hmem, hov, (Except.error.inj he).symm⟩
      · rw [heq] at he
        exact Except.noConfusion he
  · intro os oe h1 h2 h3
    simp only [reported_count, U64_eq] at h2 h3 ⊢
    omega

/-- C4 witness: on the empty tracker a non-intersecting call inserts its
range and succeeds. -/
theorem C4_witness :
    accept_new_range loader0 4 2 BootPageAcceptance.Shared
      = (Except.ok (),
         { loader0 with
             accepted_ranges := [(4, page_end 4 2, BootPageAcceptance.Shared)] }) :=
  (C4_accept_new_range_spec.2.1 loader0 4 2 BootPageAcceptance.Shared).1
    (by intro r hr; simp [loader0, Loader.new] at hr)

/-- C6: once a register of some kind is stored, a second import of any
register of the same kind at the session's maximum trust level aborts
the process (modelled as `none`) instead of returning an error or
overwriting. -/
theorem C6_duplicate_register_panics (l : Loader) (r0 register : X86Register)
    (h : l.regs (discriminant register) = some r0) :
    import_vp_register l l.max_vtl register = none := by
  simp [import_vp_register, h]

/-- C6 witness: `loaderReg` already holds a Rip-kind register; importing
another Rip-kind register at the maximum trust level aborts. -/
theorem C6_witness :
    loaderReg.regs (discriminant { kind := RegisterKind.Rip, value := 7 })
        = some { kind := RegisterKind.Rip, value := 5 } ∧
    import_vp_register loaderReg loaderReg.max_vtl
        { kind := RegisterKind.Rip, value := 7 } = none :=
  ⟨rfl, C6_duplicate_register_panics loaderReg
    { kind := RegisterKind.Rip, value := 5 } { kind := RegisterKind.Rip, value := 7 } rfl⟩

/-- C10: `accept_new_range` computes the inclusive end as the u64
expression `page_base + page_count - 1` with no zero-count guard: for
page_count ≥ 1 (without high-end wrap) it is the true inclusive end, but
at page_base = 0, page_count = 0 the subtraction underflows to
2^64 - 1, and the call is accepted rather than rejected with a typed
error. -/
theorem C10_zero_count_underflow :
    (∀ pb pc, 1 ≤ pc → pb + pc ≤ U64 → page_end pb pc = pb + pc - 1) ∧
    page_end 0 0 = U64 - 1 ∧
    (accept_new_range loader0 0 0 BootPageAcceptance.ExclusiveAndMeasured).1
        = Except.ok () := by
  refine ⟨?_, by decide, rfl⟩
  intro pb pc h1 h2
  simp only [page_end, U64_eq] at h2 ⊢
  omega

/-- C10 witness: a well-formed call, page_base 3 and page_count 5, gets
the true inclusive end 3 + 5 - 1. -/
theorem C10_witness : page_end 3 5 = 3 + 5 - 1 :=
  C10_zero_count_underflow.1 3 5 (by decide) (by decide)

/-- Running a sequence of all-successful `import_pages` calls adds the
mathematical sum of `page_count * HV_PAGE_SIZE` to the byte counter,
provided that total stays below 2^64. -/
theorem run_bytes_aux :
    ∀ (cs : List ImportCall) (l : Loader),
      run_imports_ok l cs = true →
      l.bytes_written + (cs.map (fun c => c.page_count * HV_PAGE_SIZE)).sum < U64 →
      (run_imports l cs).bytes_written
        = l.bytes_written + (cs.map (fun c => c.page_count * HV_PAGE_SIZE)).sum := by
  intro cs
  induction cs with
  | nil => intro l _ _; simp [run_imports]
  | cons c rest ih =>
      intro l hok hlt
      simp only [List.map_cons, List.sum_cons] at hlt ⊢
      cases hstep : import_pages l c.page_base c.page_count c.acceptance c.data_len c.write_ok with
      | mk res l2 =>
        cases res with
        | error err =>
            rw [run_imports_ok, hstep] at hok
            exact Bool.noConfusion hok
        | ok u =>
            have h2 := import_pages_ok_char l c.page_base c.page_count c.acceptance
              c.data_len c.write_ok (by rw [hstep])
            rw [hstep] at h2
            have h2x : l2
                = { l with
                      accepted_ranges :=
                        (c.page_base, page_end c.page_base c.page_count, c.acceptance)
                          :: l.accepted_ranges,
                      bytes_written :=
                        (l.bytes_written + c.page_count * HV_PAGE_SIZE) % U64 } := h2
            have hok2 : run_imports_ok l2 rest = true := by
              rw [run_imports_ok, hstep] at hok
              exact hok
            have hmod : (l.bytes_written + c.page_count * HV_PAGE_SIZE) % U64
                = l.bytes_written + c.page_count * HV_PAGE_SIZE :=
              Nat.mod_eq_of_lt (by omega)
            have hb2 : l2.bytes_written = l.bytes_written + c.page_count * HV_PAGE_SIZE := by
              rw [h2x]
              exact hmod
            rw [run_imports, hstep]
            rw [ih l2 hok2 (by rw [hb2]; omega), hb2]
            omega

/-- C9 counterexample: a fresh loader, one successful `import_pages` call
with page_count 2^60 and empty data.  The u64 product
`page_count * HV_PAGE_SIZE` is 2^72, which wraps to 0, so
`bytes_written` stays 0 instead of equalling the claimed sum. -/
theorem C9_bytes_written_counterexample :
    (import_pages loader0 0 (2 ^ 60) BootPageAcceptance.ExclusiveAndMeasured 0 true).1
        = Except.ok () ∧
    (run_imports loader0
        [{ page_base := 0, page_count := 2 ^ 60,
           acceptance := BootPageAcceptance.ExclusiveAndMeasured,
           data_len := 0, write_ok := true }]).bytes_written = 0 ∧
    (0 : Nat) ≠ 2 ^ 60 * HV_PAGE_SIZE := by
  refine ⟨rfl, rfl, by decide⟩

/-- C9 (amended with the proviso that the total stays below 2^64): after
any all-successful `import_pages` sequence the byte counter equals
Σ page_count_i * HV_PAGE_SIZE, and each successful call advances the
counter by page_count * HV_PAGE_SIZE (u64 addition) regardless of the
supplied data length. -/
theorem C9_bytes_written_sum :
    (∀ (l0 : Loader) (cs : List ImportCall), l0.bytes_written = 0 →
      run_imports_ok l0 cs = true →
      (cs.map (fun c => c.page_count * HV_PAGE_SIZE)).sum < U64 →
      (run_imports l0 cs).bytes_written
        = (cs.map (fun c => c.page_count * HV_PAGE_SIZE)).sum) ∧
    (∀ (l : Loader) (pb pc : Nat) (a : BootPageAcceptance) (dl : Nat) (w : Bool),
      (import_pages l pb pc a dl w).1 = Except.ok () →
      (import_pages l pb pc a dl w).2.bytes_written
        = (l.bytes_written + pc * HV_PAGE_SIZE) % U64) := by
  constructor
  · intro l0 cs h0 hok hlt
    have := run_bytes_aux cs l0 hok (by omega)
    omega
  · intro l pb pc a dl w h
    rw [import_pages_ok_char l pb pc a dl w h]

/-- C9 witness: two successful one-page imports starting from a fresh
loader leave the counter at exactly 2 * HV_PAGE_SIZE. -/
theorem C9_witness :
    (run_imports loader0
        [{ page_base := 0, page_count := 1,
           acceptance := BootPageAcceptance.ExclusiveAndMeasured,
           data_len := 16, write_ok := true },
         { page_base := 1, page_count := 1,
           acceptance := BootPageAcceptance.Shared,
           data_len := 0, write_ok := true }]).bytes_written
      = 1 * HV_PAGE_SIZE + (1 * HV_PAGE_SIZE + 0) :=
  C9_bytes_written_sum.1 loader0
    [{ page_base := 0, page_count := 1,
       acceptance := BootPageAcceptance.ExclusiveAndMeasured,
       data_len := 16, write_ok := true },
     { page_base := 1, page_count := 1,
       acceptance := BootPageAcceptance.Shared,
       data_len := 0, write_ok := true }] rfl (by decide) (by decide)

/-- If the range loop returns success then either the flag was already
set or some scanned range contains the base address and bounds the end
address. -/
theorem verify_ranges_ok_elim (base e : Nat) :
    ∀ (rs : List (Nat × Nat)) (found : Bool),
      verify_ranges rs base e found = Except.ok () →
      found = true ∨ ∃ r ∈ rs, r.1 ≤ base ∧ base < r.2 ∧ e ≤ r.2 := by
  intro rs
  induction rs with
  | nil =>
      intro found h
      cases found
      · simp [verify_ranges] at h
      · exact Or.inl rfl
  | cons r rest ih =>
      intro found h
      obtain ⟨s, la⟩ := r
      rw [verify_ranges] at h
      by_cases hc : base ≥ s ∧ base < la
      · rw [if_pos hc] at h
        by_cases he : e > la
        · rw [if_pos he] at h
          exact Except.noConfusion h
        · rw [if_neg he] at h
          exact Or.inr ⟨(s, la), List.mem_cons_self (s, la) rest, hc.1, hc.2, by omega⟩
      · rw [if_neg hc] at h
        rcases ih found h with hf | ⟨r2, hm, h1, h2, h3⟩
        · exact Or.inl hf
        · exact Or.inr ⟨r2, List.mem_cons_of_mem (s, la) hm, h1, h2, h3⟩

/-- If no scanned range contains the base address together with the end
address, the range loop (entered with the flag clear) fails with
MemoryUnavailable. -/
theorem verify_ranges_not_contained (base e : Nat) :
    ∀ rs : List (Nat × Nat),
      (¬ ∃ r ∈ rs, r.1 ≤ base ∧ base < r.2 ∧ e ≤ r.2) →
      verify_ranges rs base e false = Except.error Error.MemoryUnavailable := by
  intro rs
  induction rs with
  | nil => intro _; rfl
  | cons r rest ih =>
      intro hne
      obtain ⟨s, la⟩ := r
      rw [verify_ranges]
      by_cases hc : base ≥ s ∧ base < la
      · rw [if_pos hc]
        by_cases he : e > la
        · rw [if_pos he]
        · exact absurd ⟨(s, la), List.mem_cons_self (s, la) rest, hc.1, hc.2, by omega⟩ hne
      · rw [if_neg hc]
        apply ih
        rintro ⟨r2, hm, hh⟩
        exact hne ⟨r2, List.mem_cons_of_mem (s, la) hm, hh⟩

/-- C7: `verify_startup_memory_available` succeeds only when the
requested byte interval [pb * HV_PAGE_SIZE, (pb + pc) * HV_PAGE_SIZE - 1]
lies entirely within a single contiguous backed range; a request not so
contained (partially or not at all) fails with MemoryUnavailable. -/
theorem C7_verify_startup_containment (l : Loader) (pb pc : Nat) (mt : StartupMemoryType)
    (hpc : 1 ≤ pc) (hlim : (pb + pc) * HV_PAGE_SIZE ≤ U64) :
    (verify_startup_memory_available l pb pc mt = Except.ok () →
      ∃ r ∈ l.memory, r.1 ≤ pb * HV_PAGE_SIZE ∧ (pb + pc) * HV_PAGE_SIZE - 1 ≤ r.2) ∧
    ((¬ ∃ r ∈ l.memory, r.1 ≤ pb * HV_PAGE_SIZE ∧ (pb + pc) * HV_PAGE_SIZE - 1 ≤ r.2) →
      verify_startup_memory_available l pb pc mt = Except.error Error.MemoryUnavailable) := by
  have hbase : (pb * HV_PAGE_SIZE) % U64 = pb * HV_PAGE_SIZE := by
    apply Nat.mod_eq_of_lt
    simp only [HV_PAGE_SIZE, U64_eq] at hlim ⊢
    omega
  have hend : ((pb * HV_PAGE_SIZE) % U64 + pc * HV_PAGE_SIZE + (U64 - 1)) % U64
      = (pb + pc) * HV_PAGE_SIZE - 1 := by
    rw [hbase]
    simp only [HV_PAGE_SIZE, U64_eq] at hlim ⊢
    omega
  unfold verify_startup_memory_available
  rw [hend, hbase]
  constructor
  · intro h
    by_cases hv : l.max_vtl = Vtl.Vtl2
    · rw [if_pos hv] at h
      rcases verify_ranges_ok_elim (pb * HV_PAGE_SIZE) ((pb + pc) * HV_PAGE_SIZE - 1)
          l.memory false h with hf | ⟨r, hm, h1, h2, h3⟩
      · exact Bool.noConfusion hf
      · exact ⟨r, hm, h1, h3⟩
    · rw [if_neg hv] at h
      by_cases hmt : mt ≠ StartupMemoryType.Ram
      · rw [if_pos hmt] at h
        exact Except.noConfusion h
      · rw [if_neg hmt] at h
        rcases verify_ranges_ok_elim (pb * HV_PAGE_SIZE) ((pb + pc) * HV_PAGE_SIZE - 1)
            l.memory false h with hf | ⟨r, hm, h1, h2, h3⟩
        · exact Bool.noConfusion hf
        · exact ⟨r, hm, h1, h3⟩
  · intro hne
    have hne2 : ¬ ∃ r ∈ l.memory, r.1 ≤ pb * HV_PAGE_SIZE ∧
        pb * HV_PAGE_SIZE < r.2 ∧ (pb + pc) * HV_PAGE_SIZE - 1 ≤ r.2 := by
      rintro ⟨r, hm, h1, h2, h3⟩
      exact hne ⟨r, hm, h1, h3⟩
    by_cases hv : l.max_vtl = Vtl.Vtl2
    · rw [if_pos hv]
      exact verify_ranges_not_contained _ _ l.memory hne2
    · rw [if_neg hv]
      by_cases hmt : mt ≠ StartupMemoryType.Ram
      · rw [if_pos hmt]
      · rw [if_neg hmt]
        exact verify_ranges_not_contained _ _ l.memory hne2

/-- C7 witness: a one-page request at page 1 against `loaderMem`
succeeds, and the theorem recovers the containing backed range. -/
theorem C7_witness :
    ∃ r ∈ loaderMem.memory, r.1 ≤ 1 * HV_PAGE_SIZE ∧ (1 + 1) * HV_PAGE_SIZE - 1 ≤ r.2 :=
  (C7_verify_startup_containment loaderMem 1 1 StartupMemoryType.Ram
    (by decide) (by decide)).1 rfl
